import Mathlib

/-!
Shallow embedding of the bounded and unbounded ping/pong liveness examples
(`src/examples/idle_timeout.rs` and `src/examples/simple.rs` of
`bevy_networking_turbulence`). Network side effects (broadcasts, per-peer
sends, session-endpoint calls) and log records are reified as lists produced
by pure functions. The fallible per-peer `send` of the session endpoint is
external; its outcome is modelled by an oracle `sendOk : Nat → Bool` giving
the result of each send attempt, numbered in the order the attempts are made.
Packet payloads are carried as the string obtained by lossy UTF-8 decoding of
the raw bytes; the decoding itself (`String::from_utf8_lossy`) happens in the
external standard library, and the examples only ever compare the decoded
text against the literal `"PING"`.
-/

/-- Inbound events produced by the session endpoint
(`NetworkEvent` of the networking plugin, as consumed by the examples). -/
inductive NetworkEvent where
  | Connected (handle : Nat)
  | Disconnected (handle : Nat)
  | Packet (handle : Nat) (message : String)
  deriving DecidableEq

/-- Log records emitted by the example systems, one constructor per
`log::info!` / `log::warn!` call site reachable in the embedded code. -/
inductive LogEntry where
  | startingServer
  | startingClient
  | gotPacket (handle : Nat) (message : String)
  | sentPong
  | pongSendError
  | noPongsLeft
  | noMorePings
  | otherEvent (event : NetworkEvent)
  deriving DecidableEq

/-- Calls into the session endpoint made by the startup routines. `listen`
keeps the two trailing `Option` arguments, which both examples pass as
`None`. -/
inductive NetCall where
  | listen (addr : Nat) (a b : Option Unit)
  | connect (addr : Nat)
  deriving DecidableEq

namespace IdleTimeout

/-- `PingPongCounter` of idle_timeout.rs: the two remaining budgets. -/
structure PingPongCounter where
  ping_reservoir : Nat
  pong_reservoir : Nat
  deriving DecidableEq

/-- `startup` of idle_timeout.rs (non-wasm path): log and `listen` when
`args.is_server`, then log and `connect` when `!args.is_server` — two
independent `if` statements, exactly as in the source. -/
def startup (is_server : Bool) (server_address : Nat) : List NetCall × List LogEntry :=
  ((if is_server then [NetCall.listen server_address none none] else []) ++
    (if !is_server then [NetCall.connect server_address] else []),
   (if is_server then [LogEntry.startingServer] else []) ++
    (if !is_server then [LogEntry.startingClient] else []))

/-- Output of one `send_pings` invocation: the updated counter, the payloads
broadcast, and the log records emitted. -/
structure PingsOutput where
  ppc : PingPongCounter
  broadcasts : List String
  logs : List LogEntry
  deriving DecidableEq

/-- `send_pings` of idle_timeout.rs: early return when the ping reservoir is
zero; otherwise decrement it, broadcast `"PING"`, and log the exhaustion
diagnostic when the decrement has just brought the reservoir to zero. -/
def send_pings (ppc : PingPongCounter) : PingsOutput :=
  if ppc.ping_reservoir = 0 then
    ⟨ppc, [], []⟩
  else
    let ppc' : PingPongCounter := ⟨ppc.ping_reservoir - 1, ppc.pong_reservoir⟩
    ⟨ppc', ["PING"],
      if ppc'.ping_reservoir = 0 then [LogEntry.noMorePings] else []⟩

/-- Iterate `send_pings` a given number of times (the system runs once per
tick of its fixed-timestep stage), collecting all broadcasts and logs. -/
def run_send_pings : Nat → PingPongCounter → PingPongCounter × List String × List LogEntry
  | 0, ppc => (ppc, [], [])
  | k + 1, ppc =>
    let out := send_pings ppc
    let rest := run_send_pings k out.ppc
    (rest.1, out.broadcasts ++ rest.2.1, out.logs ++ rest.2.2)

/-- Output of `send_pongs` over an event batch: the updated counter, the
send attempts made (peer handle and payload, in order), and the logs. -/
structure PongsOutput where
  ppc : PingPongCounter
  sends : List (Nat × String)
  logs : List LogEntry
  deriving DecidableEq

/-- Body of the `for event in reader.iter()` loop of `send_pongs`, as a
structural recursion over the event batch. `k` counts the send attempts
already made, so `sendOk k` is the session endpoint's answer to the next
attempt. A `Packet` event is always logged; if its decoded text equals
`"PING"` and the pong reservoir is positive, the reservoir is decremented and
a `"PONG"` send to the originating peer is attempted, logging success or the
(discarded) error; with an empty reservoir the suppression message is logged;
any other event is logged as an other-event record. -/
def send_pongsAux (sendOk : Nat → Bool) (ppc : PingPongCounter) (k : Nat) :
    List NetworkEvent → PongsOutput
  | [] => ⟨ppc, [], []⟩
  | e :: evs =>
    match e with
    | NetworkEvent.Packet handle message =>
      if message = "PING" then
        if ppc.pong_reservoir > 0 then
          let ppc' : PingPongCounter := ⟨ppc.ping_reservoir, ppc.pong_reservoir - 1⟩
          let sendLog := if sendOk k then LogEntry.sentPong else LogEntry.pongSendError
          let rest := send_pongsAux sendOk ppc' (k + 1) evs
          ⟨rest.ppc, (handle, "PONG") :: rest.sends,
            LogEntry.gotPacket handle message :: sendLog :: rest.logs⟩
        else
          let rest := send_pongsAux sendOk ppc k evs
          ⟨rest.ppc, rest.sends,
            LogEntry.gotPacket handle message :: LogEntry.noPongsLeft :: rest.logs⟩
      else
        let rest := send_pongsAux sendOk ppc k evs
        ⟨rest.ppc, rest.sends, LogEntry.gotPacket handle message :: rest.logs⟩
    | other =>
      let rest := send_pongsAux sendOk ppc k evs
      ⟨rest.ppc, rest.sends, LogEntry.otherEvent other :: rest.logs⟩

/-- `send_pongs` of idle_timeout.rs over one drained event batch. -/
def send_pongs (sendOk : Nat → Bool) (ppc : PingPongCounter)
    (events : List NetworkEvent) : PongsOutput :=
  send_pongsAux sendOk ppc 0 events

/-- One scheduled invocation of either example system: a tick of the ping
emitter, or the pong responder draining an event batch (with the send oracle
for that batch). -/
inductive Invocation where
  | pingTick
  | pongBatch (sendOk : Nat → Bool) (events : List NetworkEvent)

/-- Effect of one invocation on the shared counter. -/
def runInvocation : Invocation → PingPongCounter → PingPongCounter
  | Invocation.pingTick, ppc => (send_pings ppc).ppc
  | Invocation.pongBatch sendOk events, ppc => (send_pongs sendOk ppc events).ppc

/-- Effect of a whole sequence of invocations on the shared counter. -/
def runTrace (trace : List Invocation) (ppc : PingPongCounter) : PingPongCounter :=
  trace.foldl (fun s i => runInvocation i s) ppc

end IdleTimeout

namespace Simple

/-- `startup` of simple.rs (non-wasm path): textually the same role dispatch
as in idle_timeout.rs. -/
def startup (is_server : Bool) (server_address : Nat) : List NetCall × List LogEntry :=
  ((if is_server then [NetCall.listen server_address none none] else []) ++
    (if !is_server then [NetCall.connect server_address] else []),
   (if is_server then [LogEntry.startingServer] else []) ++
    (if !is_server then [LogEntry.startingClient] else []))

/-- Rust `as i64` applied to a non-negative float truncates toward zero;
the elapsed time is modelled as a rational, truncated with T-division. -/
def rustTruncToInt (q : ℚ) : Int := q.num.tdiv (q.den : Int)

/-- `send_packets` of simple.rs: only a non-server broadcasts, and only on
ticks where `(seconds_since_startup * 60) as i64 % 60 == 0`. -/
def send_packets (is_server : Bool) (seconds_since_startup : ℚ) : List String :=
  if !is_server then
    if (rustTruncToInt (seconds_since_startup * 60)).tmod 60 = 0 then ["PING"]
    else []
  else []

/-- Output of `handle_packets` over an event batch: send attempts and logs
(the simple example keeps no counter state). -/
structure HandleOutput where
  sends : List (Nat × String)
  logs : List LogEntry
  deriving DecidableEq

/-- Body of the event loop of `handle_packets` in simple.rs. Every `Packet`
is logged; a packet whose decoded text equals `"PING"` is answered
unconditionally with a `"PONG @ <elapsed-seconds>"` send to the originating
peer (`timeStr` is the external rendering of `time.seconds_since_startup()`),
logging success or the discarded error; every other event falls into the
`_ => {}` arm, which does nothing. -/
def handle_packetsAux (sendOk : Nat → Bool) (timeStr : String) (k : Nat) :
    List NetworkEvent → HandleOutput
  | [] => ⟨[], []⟩
  | e :: evs =>
    match e with
    | NetworkEvent.Packet handle message =>
      if message = "PING" then
        let payload := "PONG @ " ++ timeStr
        let sendLog := if sendOk k then LogEntry.sentPong else LogEntry.pongSendError
        let rest := handle_packetsAux sendOk timeStr (k + 1) evs
        ⟨(handle, payload) :: rest.sends,
          LogEntry.gotPacket handle message :: sendLog :: rest.logs⟩
      else
        let rest := handle_packetsAux sendOk timeStr k evs
        ⟨rest.sends, LogEntry.gotPacket handle message :: rest.logs⟩
    | _ =>
      let rest := handle_packetsAux sendOk timeStr k evs
      ⟨rest.sends, rest.logs⟩

/-- `handle_packets` of simple.rs over one drained event batch. -/
def handle_packets (sendOk : Nat → Bool) (timeStr : String)
    (events : List NetworkEvent) : HandleOutput :=
  handle_packetsAux sendOk timeStr 0 events

end Simple

/-- A `Packet` event whose decoded payload is exactly `"PING"`. -/
def isPingEvent : NetworkEvent → Bool
  | NetworkEvent.Packet _ message => message = "PING"
  | _ => false

/-- The single log record the bounded responder emits for an event that is
not a PING packet: the got-packet record for a `Packet`, the other-event
record otherwise. -/
def eventLog : NetworkEvent → LogEntry
  | NetworkEvent.Packet handle message => LogEntry.gotPacket handle message
  | other => LogEntry.otherEvent other

namespace IdleTimeout

/-- One `send_pings` call on a positive reservoir: decrement, one broadcast,
diagnostic exactly when the reservoir just hit zero. -/
theorem send_pings_pos (ppc : PingPongCounter) (h : ppc.ping_reservoir ≠ 0) :
    send_pings ppc =
      ⟨⟨ppc.ping_reservoir - 1, ppc.pong_reservoir⟩, ["PING"],
        if ppc.ping_reservoir - 1 = 0 then [LogEntry.noMorePings] else []⟩ := by
  simp [send_pings, h]

/-- One `send_pings` call on an empty reservoir is a no-op. -/
theorem send_pings_zero (ppc : PingPongCounter) (h : ppc.ping_reservoir = 0) :
    send_pings ppc = ⟨ppc, [], []⟩ := by
  simp [send_pings, h]

/-- Closed form for iterating `send_pings`: the reservoir decreases by one
per invocation (truncated at zero), the broadcasts are one `"PING"` per
invocation until exhaustion, and the exhaustion diagnostic appears exactly
once, iff the initial reservoir is positive and the run is long enough to
empty it. -/
theorem run_send_pings_spec (k : Nat) : ∀ P pong : Nat,
    (run_send_pings k ⟨P, pong⟩).1 = ⟨P - k, pong⟩ ∧
    (run_send_pings k ⟨P, pong⟩).2.1 = List.replicate (min k P) "PING" ∧
    (run_send_pings k ⟨P, pong⟩).2.2.count LogEntry.noMorePings =
      if 0 < P ∧ P ≤ k then 1 else 0 := by
  induction k with
  | zero =>
    intro P pong
    refine ⟨by simp [run_send_pings], by simp [run_send_pings], ?_⟩
    have hP : ¬ (0 < P ∧ P ≤ 0) := by omega
    simp only [run_send_pings, List.count_nil, if_neg hP]
  | succ k ih =>
    intro P pong
    cases P with
    | zero =>
      obtain ⟨h1, h2, h3⟩ := ih 0 pong
      have hz : send_pings ⟨0, pong⟩ = ⟨⟨0, pong⟩, [], []⟩ :=
        send_pings_zero _ rfl
      refine ⟨?_, ?_, ?_⟩
      · simpa [run_send_pings, hz] using h1
      · simpa [run_send_pings, hz] using h2
      · have hc : ¬ (0 < 0 ∧ 0 ≤ k + 1) := by omega
        have hc' : ¬ (0 < 0 ∧ 0 ≤ k) := by omega
        simp [hc'] at h3
        simpa [run_send_pings, hz, hc] using h3
    | succ Q =>
      obtain ⟨h1, h2, h3⟩ := ih Q pong
      have hs : send_pings ⟨Q + 1, pong⟩ =
          ⟨⟨Q, pong⟩, ["PING"],
            if Q = 0 then [LogEntry.noMorePings] else []⟩ := by
        simpa using send_pings_pos ⟨Q + 1, pong⟩ (Nat.succ_ne_zero Q)
      refine ⟨?_, ?_, ?_⟩
      · simpa [run_send_pings, hs, Nat.succ_sub_succ] using h1
      · simp [run_send_pings, hs, h2, Nat.succ_min_succ, List.replicate_succ]
      · simp only [run_send_pings, hs, List.count_append, h3]
        rcases Nat.eq_zero_or_pos Q with hQ | hQ
        · subst hQ
          simp
        · have hne : Q ≠ 0 := Nat.pos_iff_ne_zero.mp hQ
          by_cases hk : Q ≤ k
          · rw [if_neg hne, if_pos ⟨hQ, hk⟩,
              if_pos (by omega : 0 < Q + 1 ∧ Q + 1 ≤ k + 1)]
            simp
          · rw [if_neg hne, if_neg (by omega), if_neg (by omega)]
            simp

end IdleTimeout

/-- C2: bounded-variant ping budget. Starting from any ping budget `P`, after
`P` invocations of `send_pings` the reservoir is exactly 0 (the pong
reservoir untouched) and exactly `P` `"PING"` broadcasts were made; each of
the first `P` invocations broadcasts exactly one `"PING"`, and every
invocation from the `P`-th state on is a no-op: no broadcast, no log, counter
stays at zero. -/
theorem ping_budget_exhaustion (P pong : Nat) :
    (IdleTimeout.run_send_pings P ⟨P, pong⟩).1 = ⟨0, pong⟩ ∧
    (IdleTimeout.run_send_pings P ⟨P, pong⟩).2.1 = List.replicate P "PING" ∧
    (∀ i, i < P →
      (IdleTimeout.send_pings
        (IdleTimeout.run_send_pings i ⟨P, pong⟩).1).broadcasts = ["PING"]) ∧
    (∀ j, P ≤ j →
      IdleTimeout.send_pings (IdleTimeout.run_send_pings j ⟨P, pong⟩).1 =
        ⟨⟨0, pong⟩, [], []⟩) := by
  obtain ⟨h1, h2, -⟩ := IdleTimeout.run_send_pings_spec P P pong
  refine ⟨by simpa using h1, by simpa using h2, ?_, ?_⟩
  · intro i hi
    obtain ⟨hc, -, -⟩ := IdleTimeout.run_send_pings_spec i P pong
    rw [hc, IdleTimeout.send_pings_pos _ (by simp; omega)]
  · intro j hj
    obtain ⟨hc, -, -⟩ := IdleTimeout.run_send_pings_spec j P pong
    rw [hc]
    have : P - j = 0 := by omega
    rw [this]
    exact IdleTimeout.send_pings_zero _ rfl

/-- C2 witness: concrete run with budget 3 over 3 invocations, exercising
both the `i < P` and the `P ≤ j` implications. -/
theorem ping_budget_exhaustion_witness :
    (IdleTimeout.run_send_pings 3 ⟨3, 7⟩).1 = ⟨0, 7⟩ ∧
    (IdleTimeout.send_pings (IdleTimeout.run_send_pings 1 ⟨3, 7⟩).1).broadcasts
      = ["PING"] ∧
    IdleTimeout.send_pings (IdleTimeout.run_send_pings 5 ⟨3, 7⟩).1 =
      ⟨⟨0, 7⟩, [], []⟩ :=
  ⟨(ping_budget_exhaustion 3 7).1,
   (ping_budget_exhaustion 3 7).2.2.1 1 (by omega),
   (ping_budget_exhaustion 3 7).2.2.2 5 (by omega)⟩

/-- C6: each `send_pings` invocation broadcasts at most one message, and over
any run of `k` invocations from initial budget `P` the exhaustion diagnostic
is logged exactly once when `0 < P ≤ k` (the invocation whose decrement
brings the reservoir from 1 to 0) and never otherwise — in particular never
when the initial budget is already 0, and never twice. -/
theorem ping_diagnostic_once :
    (∀ ppc : IdleTimeout.PingPongCounter,
      (IdleTimeout.send_pings ppc).broadcasts.length ≤ 1) ∧
    (∀ P pong k : Nat,
      (IdleTimeout.run_send_pings k ⟨P, pong⟩).2.2.count LogEntry.noMorePings =
        if 0 < P ∧ P ≤ k then 1 else 0) := by
  constructor
  · intro ppc
    by_cases h : ppc.ping_reservoir = 0
    · rw [IdleTimeout.send_pings_zero ppc h]
      simp
    · rw [IdleTimeout.send_pings_pos ppc h]
      simp
  · intro P pong k
    exact (IdleTimeout.run_send_pings_spec k P pong).2.2

/-- C9 (implicit): the bounded-variant ping emitter does not read the role
configuration — the Rust `send_pings` takes only the network resource and the
counter — so for every role, whenever the ping reservoir is positive an
invocation broadcasts exactly one `"PING"` and decrements the reservoir,
identically for server and client. -/
theorem ping_emitter_role_independent (is_server : Bool)
    (ppc : IdleTimeout.PingPongCounter) (h : 0 < ppc.ping_reservoir) :
    IdleTimeout.send_pings ppc =
      ⟨⟨ppc.ping_reservoir - 1, ppc.pong_reservoir⟩, ["PING"],
        if ppc.ping_reservoir - 1 = 0 then [LogEntry.noMorePings] else []⟩ :=
  IdleTimeout.send_pings_pos ppc (by omega)

/-- C9 witness: a server-role invocation at budget 2 broadcasts a PING and
decrements to 1. -/
theorem ping_emitter_role_independent_witness :
    0 < (⟨2, 5⟩ : IdleTimeout.PingPongCounter).ping_reservoir ∧
    IdleTimeout.send_pings ⟨2, 5⟩ =
      ⟨⟨2 - 1, 5⟩, ["PING"],
        if 2 - 1 = 0 then [LogEntry.noMorePings] else []⟩ :=
  ⟨by decide, ping_emitter_role_independent true ⟨2, 5⟩ (by decide)⟩

namespace IdleTimeout

/-- Unfolding: an empty batch leaves everything untouched. -/
theorem send_pongsAux_nil (sendOk : Nat → Bool) (ppc : PingPongCounter) (k : Nat) :
    send_pongsAux sendOk ppc k [] = ⟨ppc, [], []⟩ := rfl

/-- Unfolding: a PING packet with a positive pong reservoir decrements the
reservoir, records the send attempt, and logs receipt plus the send outcome. -/
theorem send_pongsAux_ping_pos (sendOk : Nat → Bool) (ppc : PingPongCounter)
    (k handle : Nat) (evs : List NetworkEvent) (h : 0 < ppc.pong_reservoir) :
    send_pongsAux sendOk ppc k (NetworkEvent.Packet handle "PING" :: evs) =
      ⟨(send_pongsAux sendOk ⟨ppc.ping_reservoir, ppc.pong_reservoir - 1⟩
          (k + 1) evs).ppc,
       (handle, "PONG") ::
         (send_pongsAux sendOk ⟨ppc.ping_reservoir, ppc.pong_reservoir - 1⟩
           (k + 1) evs).sends,
       LogEntry.gotPacket handle "PING" ::
         (if sendOk k then LogEntry.sentPong else LogEntry.pongSendError) ::
         (send_pongsAux sendOk ⟨ppc.ping_reservoir, ppc.pong_reservoir - 1⟩
           (k + 1) evs).logs⟩ := by
  simp [send_pongsAux, h]

/-- Unfolding: a PING packet with an empty pong reservoir only logs receipt
and the suppression message. -/
theorem send_pongsAux_ping_zero (sendOk : Nat → Bool) (ppc : PingPongCounter)
    (k handle : Nat) (evs : List NetworkEvent) (h : ppc.pong_reservoir = 0) :
    send_pongsAux sendOk ppc k (NetworkEvent.Packet handle "PING" :: evs) =
      ⟨(send_pongsAux sendOk ppc k evs).ppc,
       (send_pongsAux sendOk ppc k evs).sends,
       LogEntry.gotPacket handle "PING" :: LogEntry.noPongsLeft ::
         (send_pongsAux sendOk ppc k evs).logs⟩ := by
  simp [send_pongsAux, h]

/-- Unfolding: a packet whose decoded text is not `"PING"` only logs
receipt. -/
theorem send_pongsAux_packet_other (sendOk : Nat → Bool) (ppc : PingPongCounter)
    (k handle : Nat) (message : String) (evs : List NetworkEvent)
    (h : message ≠ "PING") :
    send_pongsAux sendOk ppc k (NetworkEvent.Packet handle message :: evs) =
      ⟨(send_pongsAux sendOk ppc k evs).ppc,
       (send_pongsAux sendOk ppc k evs).sends,
       LogEntry.gotPacket handle message ::
         (send_pongsAux sendOk ppc k evs).logs⟩ := by
  simp [send_pongsAux, h]

/-- Unfolding: a connection event only logs the other-event record. -/
theorem send_pongsAux_connected (sendOk : Nat → Bool) (ppc : PingPongCounter)
    (k handle : Nat) (evs : List NetworkEvent) :
    send_pongsAux sendOk ppc k (NetworkEvent.Connected handle :: evs) =
      ⟨(send_pongsAux sendOk ppc k evs).ppc,
       (send_pongsAux sendOk ppc k evs).sends,
       LogEntry.otherEvent (NetworkEvent.Connected handle) ::
         (send_pongsAux sendOk ppc k evs).logs⟩ := by
  simp [send_pongsAux]

/-- Unfolding: a disconnection event only logs the other-event record. -/
theorem send_pongsAux_disconnected (sendOk : Nat → Bool) (ppc : PingPongCounter)
    (k handle : Nat) (evs : List NetworkEvent) :
    send_pongsAux sendOk ppc k (NetworkEvent.Disconnected handle :: evs) =
      ⟨(send_pongsAux sendOk ppc k evs).ppc,
       (send_pongsAux sendOk ppc k evs).sends,
       LogEntry.otherEvent (NetworkEvent.Disconnected handle) ::
         (send_pongsAux sendOk ppc k evs).logs⟩ := by
  simp [send_pongsAux]

/-- The responder never touches the ping reservoir and never increases the
pong reservoir, whatever the batch. -/
theorem send_pongsAux_counter (sendOk : Nat → Bool) (evs : List NetworkEvent) :
    ∀ (ppc : PingPongCounter) (k : Nat),
      (send_pongsAux sendOk ppc k evs).ppc.ping_reservoir = ppc.ping_reservoir ∧
      (send_pongsAux sendOk ppc k evs).ppc.pong_reservoir ≤ ppc.pong_reservoir := by
  induction evs with
  | nil =>
    intro ppc k
    rw [send_pongsAux_nil]
    exact ⟨rfl, le_refl _⟩
  | cons e evs ih =>
    intro ppc k
    cases e with
    | Connected handle =>
      rw [send_pongsAux_connected]
      exact ih ppc k
    | Disconnected handle =>
      rw [send_pongsAux_disconnected]
      exact ih ppc k
    | Packet handle message =>
      by_cases hm : message = "PING"
      · subst hm
        rcases Nat.eq_zero_or_pos ppc.pong_reservoir with hp | hp
        · rw [send_pongsAux_ping_zero sendOk ppc k handle evs hp]
          exact ih ppc k
        · rw [send_pongsAux_ping_pos sendOk ppc k handle evs hp]
          obtain ⟨h1, h2⟩ := ih ⟨ppc.ping_reservoir, ppc.pong_reservoir - 1⟩ (k + 1)
          exact ⟨h1, le_trans h2 (Nat.sub_le _ _)⟩
      · rw [send_pongsAux_packet_other sendOk ppc k handle message evs hm]
        exact ih ppc k

/-- The counter after an invocation is non-increasing componentwise. -/
theorem runInvocation_le (i : Invocation) (ppc : PingPongCounter) :
    (runInvocation i ppc).ping_reservoir ≤ ppc.ping_reservoir ∧
    (runInvocation i ppc).pong_reservoir ≤ ppc.pong_reservoir := by
  cases i with
  | pingTick =>
    show (send_pings ppc).ppc.ping_reservoir ≤ _ ∧
      (send_pings ppc).ppc.pong_reservoir ≤ _
    by_cases h : ppc.ping_reservoir = 0
    · rw [send_pings_zero ppc h]
      exact ⟨le_refl _, le_refl _⟩
    · rw [send_pings_pos ppc h]
      exact ⟨Nat.sub_le _ _, le_refl _⟩
  | pongBatch sendOk events =>
    obtain ⟨h1, h2⟩ := send_pongsAux_counter sendOk events ppc 0
    exact ⟨le_of_eq h1, h2⟩

/-- The counter after any sequence of invocations is non-increasing
componentwise. -/
theorem runTrace_le (trace : List Invocation) :
    ∀ ppc : PingPongCounter,
      (runTrace trace ppc).ping_reservoir ≤ ppc.ping_reservoir ∧
      (runTrace trace ppc).pong_reservoir ≤ ppc.pong_reservoir := by
  induction trace with
  | nil =>
    intro ppc
    exact ⟨le_refl _, le_refl _⟩
  | cons i tr ih =>
    intro ppc
    have h1 := runInvocation_le i ppc
    have h2 := ih (runInvocation i ppc)
    have hstep : runTrace (i :: tr) ppc = runTrace tr (runInvocation i ppc) := rfl
    rw [hstep]
    exact ⟨le_trans h2.1 h1.1, le_trans h2.2 h1.2⟩

end IdleTimeout

/-- C3: LivenessCounter invariant. Over every sequence of ping-emitter and
pong-responder invocations, both reservoirs are non-increasing (so, via the
trace-splitting conjunct, non-increasing at every intermediate point), and a
reservoir that is zero stays zero forever; the counters are naturals, and the
code guards every decrement behind a positivity test, so no decrement is
attempted at zero. -/
theorem liveness_counter_invariant (trace : List IdleTimeout.Invocation)
    (ppc : IdleTimeout.PingPongCounter) :
    ((IdleTimeout.runTrace trace ppc).ping_reservoir ≤ ppc.ping_reservoir ∧
     (IdleTimeout.runTrace trace ppc).pong_reservoir ≤ ppc.pong_reservoir) ∧
    (∀ t1 t2 : List IdleTimeout.Invocation,
      IdleTimeout.runTrace (t1 ++ t2) ppc =
        IdleTimeout.runTrace t2 (IdleTimeout.runTrace t1 ppc)) ∧
    (ppc.ping_reservoir = 0 →
      (IdleTimeout.runTrace trace ppc).ping_reservoir = 0) ∧
    (ppc.pong_reservoir = 0 →
      (IdleTimeout.runTrace trace ppc).pong_reservoir = 0) := by
  have h := IdleTimeout.runTrace_le trace ppc
  refine ⟨h, ?_, ?_, ?_⟩
  · intro t1 t2
    exact List.foldl_append _ _ t1 t2
  · intro hz
    have := h.1
    omega
  · intro hz
    have := h.2
    omega

/-- C3 witness: a ping tick from an exhausted ping budget keeps it at zero,
and a PING-answering batch from an exhausted pong budget keeps it at zero. -/
theorem liveness_counter_invariant_witness :
    (IdleTimeout.runTrace [IdleTimeout.Invocation.pingTick] ⟨0, 3⟩).ping_reservoir
      = 0 ∧
    (IdleTimeout.runTrace
      [IdleTimeout.Invocation.pongBatch (fun _ => true)
        [NetworkEvent.Packet 4 "PING"]] ⟨3, 0⟩).pong_reservoir = 0 :=
  ⟨(liveness_counter_invariant [IdleTimeout.Invocation.pingTick] ⟨0, 3⟩).2.2.1 rfl,
   (liveness_counter_invariant
     [IdleTimeout.Invocation.pongBatch (fun _ => true)
       [NetworkEvent.Packet 4 "PING"]] ⟨3, 0⟩).2.2.2 rfl⟩

namespace IdleTimeout

/-- A batch of PING packets hitting an empty pong reservoir: no send, no
counter change, one suppression log per PING. -/
theorem send_pongsAux_ping_batch_zero (sendOk : Nat → Bool) (hs : List Nat) :
    ∀ (p k : Nat),
      (send_pongsAux sendOk ⟨p, 0⟩ k
        (hs.map fun h => NetworkEvent.Packet h "PING")).ppc = ⟨p, 0⟩ ∧
      (send_pongsAux sendOk ⟨p, 0⟩ k
        (hs.map fun h => NetworkEvent.Packet h "PING")).sends = [] ∧
      (send_pongsAux sendOk ⟨p, 0⟩ k
        (hs.map fun h => NetworkEvent.Packet h "PING")).logs.count
          LogEntry.noPongsLeft = hs.length := by
  induction hs with
  | nil =>
    intro p k
    rw [List.map_nil, send_pongsAux_nil]
    exact ⟨rfl, rfl, rfl⟩
  | cons hd tl ih =>
    intro p k
    rw [List.map_cons, send_pongsAux_ping_zero sendOk ⟨p, 0⟩ k hd _ rfl]
    obtain ⟨h1, h2, h3⟩ := ih p k
    refine ⟨h1, h2, ?_⟩
    simp [List.count_cons, h3]

/-- A batch of `hs.length` PING packets against a pong budget
`Q < hs.length`: the send attempts are exactly one `"PONG"` to each of the
first `Q` senders in order, the remaining `hs.length - Q` PINGs each log a
suppression, the pong reservoir ends at zero and the ping reservoir is
untouched. -/
theorem send_pongsAux_ping_batch (sendOk : Nat → Bool) (hs : List Nat) :
    ∀ (Q p k : Nat), Q < hs.length →
      (send_pongsAux sendOk ⟨p, Q⟩ k
        (hs.map fun h => NetworkEvent.Packet h "PING")).sends =
        (hs.take Q).map (fun h => (h, "PONG")) ∧
      (send_pongsAux sendOk ⟨p, Q⟩ k
        (hs.map fun h => NetworkEvent.Packet h "PING")).logs.count
          LogEntry.noPongsLeft = hs.length - Q ∧
      (send_pongsAux sendOk ⟨p, Q⟩ k
        (hs.map fun h => NetworkEvent.Packet h "PING")).ppc = ⟨p, 0⟩ := by
  induction hs with
  | nil =>
    intro Q p k hQ
    simp at hQ
  | cons hd tl ih =>
    intro Q p k hQ
    cases Q with
    | zero =>
      obtain ⟨z1, z2, z3⟩ := send_pongsAux_ping_batch_zero sendOk (hd :: tl) p k
      exact ⟨by simpa using z2, by simpa using z3, z1⟩
    | succ Q =>
      rw [List.map_cons,
        send_pongsAux_ping_pos sendOk ⟨p, Q + 1⟩ k hd _ (Nat.succ_pos Q)]
      obtain ⟨i1, i2, i3⟩ := ih Q p (k + 1) (by simpa using hQ)
      refine ⟨?_, ?_, ?_⟩
      · simpa [List.take_succ_cons] using i1
      · have hne :
            (if sendOk k then LogEntry.sentPong else LogEntry.pongSendError) ≠
              LogEntry.noPongsLeft := by
          by_cases hk : sendOk k <;> simp [hk]
        simp [List.count_cons, hne, i2]
      · simpa using i3

end IdleTimeout

/-- C1: bounded-variant pong budget. For every pong budget `Q`, every ping
reservoir `p`, every send oracle, and every batch of `N > Q` inbound packets
all decoding to `"PING"`, the responder attempts exactly `Q` PONG sends —
one to the originating peer of each of the first `Q` PINGs, in order — and
each of the remaining `N - Q` PINGs yields a suppression log and no send;
the pong reservoir ends at zero and the ping reservoir is untouched. -/
theorem pong_budget_exhaustion (sendOk : Nat → Bool) (handles : List Nat)
    (p Q : Nat) (hQ : Q < handles.length) :
    (IdleTimeout.send_pongs sendOk ⟨p, Q⟩
      (handles.map fun h => NetworkEvent.Packet h "PING")).sends =
      (handles.take Q).map (fun h => (h, "PONG")) ∧
    (IdleTimeout.send_pongs sendOk ⟨p, Q⟩
      (handles.map fun h => NetworkEvent.Packet h "PING")).sends.length = Q ∧
    (IdleTimeout.send_pongs sendOk ⟨p, Q⟩
      (handles.map fun h => NetworkEvent.Packet h "PING")).logs.count
        LogEntry.noPongsLeft = handles.length - Q ∧
    (IdleTimeout.send_pongs sendOk ⟨p, Q⟩
      (handles.map fun h => NetworkEvent.Packet h "PING")).ppc = ⟨p, 0⟩ := by
  obtain ⟨h1, h2, h3⟩ :=
    IdleTimeout.send_pongsAux_ping_batch sendOk handles Q p 0 hQ
  have hlen : (IdleTimeout.send_pongs sendOk ⟨p, Q⟩
      (handles.map fun h => NetworkEvent.Packet h "PING")).sends.length = Q := by
    show (IdleTimeout.send_pongsAux sendOk ⟨p, Q⟩ 0
      (handles.map fun h => NetworkEvent.Packet h "PING")).sends.length = Q
    rw [h1]
    simp [List.length_take]
    omega
  exact ⟨h1, hlen, h2, h3⟩

/-- C1 witness: budget 1 against three PINGs from peers 5, 6, 7 — one PONG
to peer 5, two suppressions. -/
theorem pong_budget_exhaustion_witness :
    1 < ([5, 6, 7] : List Nat).length ∧
    (IdleTimeout.send_pongs (fun _ => true) ⟨0, 1⟩
      (([5, 6, 7] : List Nat).map fun h => NetworkEvent.Packet h "PING")).sends =
      (([5, 6, 7] : List Nat).take 1).map (fun h => (h, "PONG")) :=
  ⟨by decide,
   (pong_budget_exhaustion (fun _ => true) [5, 6, 7] 0 1 (by decide)).1⟩

namespace IdleTimeout

/-- The final counter and the send attempts do not depend on the send oracle
(nor on the attempt numbering): only the success/error log entries do. -/
theorem send_pongsAux_oracle_indep (ok1 ok2 : Nat → Bool)
    (evs : List NetworkEvent) :
    ∀ (ppc : PingPongCounter) (k1 k2 : Nat),
      (send_pongsAux ok1 ppc k1 evs).ppc = (send_pongsAux ok2 ppc k2 evs).ppc ∧
      (send_pongsAux ok1 ppc k1 evs).sends =
        (send_pongsAux ok2 ppc k2 evs).sends := by
  induction evs with
  | nil =>
    intro ppc k1 k2
    rw [send_pongsAux_nil, send_pongsAux_nil]
    exact ⟨rfl, rfl⟩
  | cons e evs ih =>
    intro ppc k1 k2
    cases e with
    | Connected handle =>
      rw [send_pongsAux_connected, send_pongsAux_connected]
      exact ih ppc k1 k2
    | Disconnected handle =>
      rw [send_pongsAux_disconnected, send_pongsAux_disconnected]
      exact ih ppc k1 k2
    | Packet handle message =>
      by_cases hm : message = "PING"
      · subst hm
        rcases Nat.eq_zero_or_pos ppc.pong_reservoir with hp | hp
        · rw [send_pongsAux_ping_zero ok1 ppc k1 handle evs hp,
            send_pongsAux_ping_zero ok2 ppc k2 handle evs hp]
          exact ih ppc k1 k2
        · rw [send_pongsAux_ping_pos ok1 ppc k1 handle evs hp,
            send_pongsAux_ping_pos ok2 ppc k2 handle evs hp]
          obtain ⟨h1, h2⟩ :=
            ih ⟨ppc.ping_reservoir, ppc.pong_reservoir - 1⟩ (k1 + 1) (k2 + 1)
          exact ⟨h1, by rw [h2]⟩
      · rw [send_pongsAux_packet_other ok1 ppc k1 handle message evs hm,
          send_pongsAux_packet_other ok2 ppc k2 handle message evs hm]
        exact ih ppc k1 k2

end IdleTimeout

/-- C10 (implicit): answering a PING with budget `Q + 1` decrements the pong
reservoir to `Q` before the send attempt, and the rest of the batch is
processed from the decremented state whatever the send outcome — only the
success/error log depends on the oracle, never the counter, the attempt
list, or the continuation; in particular the final counter and send attempts
of any batch are identical under an always-failing and an always-succeeding
endpoint. -/
theorem pong_decrement_before_send :
    (∀ (sendOk : Nat → Bool) (p Q handle : Nat) (evs : List NetworkEvent),
      IdleTimeout.send_pongs sendOk ⟨p, Q + 1⟩
          (NetworkEvent.Packet handle "PING" :: evs) =
        ⟨(IdleTimeout.send_pongsAux sendOk ⟨p, Q⟩ 1 evs).ppc,
         (handle, "PONG") ::
           (IdleTimeout.send_pongsAux sendOk ⟨p, Q⟩ 1 evs).sends,
         LogEntry.gotPacket handle "PING" ::
           (if sendOk 0 then LogEntry.sentPong else LogEntry.pongSendError) ::
           (IdleTimeout.send_pongsAux sendOk ⟨p, Q⟩ 1 evs).logs⟩) ∧
    (∀ (sendOk : Nat → Bool) (ppc : IdleTimeout.PingPongCounter)
        (evs : List NetworkEvent),
      (IdleTimeout.send_pongs sendOk ppc evs).ppc =
        (IdleTimeout.send_pongs (fun _ => true) ppc evs).ppc ∧
      (IdleTimeout.send_pongs sendOk ppc evs).sends =
        (IdleTimeout.send_pongs (fun _ => true) ppc evs).sends) := by
  constructor
  · intro sendOk p Q handle evs
    rw [IdleTimeout.send_pongs,
      IdleTimeout.send_pongsAux_ping_pos sendOk ⟨p, Q + 1⟩ 0 handle evs
        (Nat.succ_pos Q)]
    simp
  · intro sendOk ppc evs
    exact IdleTimeout.send_pongsAux_oracle_indep sendOk (fun _ => true) evs ppc 0 0

/-- C4: startup role exclusivity. In both the bounded (idle_timeout) and the
unbounded (simple) variant, the startup routine makes exactly one session
endpoint call: `listen` at the server address when `is_server` is true, and
`connect` to it when `is_server` is false — never both. -/
theorem startup_role_exclusivity (is_server : Bool) (addr : Nat) :
    (IdleTimeout.startup is_server addr).1 =
      (if is_server then [NetCall.listen addr none none]
       else [NetCall.connect addr]) ∧
    (Simple.startup is_server addr).1 =
      (if is_server then [NetCall.listen addr none none]
       else [NetCall.connect addr]) ∧
    (IdleTimeout.startup is_server addr).1.length = 1 ∧
    (Simple.startup is_server addr).1.length = 1 := by
  cases is_server <;> simp [IdleTimeout.startup, Simple.startup]

/-- C5 counterexample: in the batch `[Packet(A,"PING"), Packet(B,"PING"),
Packet(A,"X")]` with pong budget 1, the non-PING packet `Packet(A,"X")` is
not logged through the other-event arm — its log is the got-packet record
from the `Packet` match arm, and no other-event record appears in the whole
trace. -/
theorem batch_ordering_counterexample :
    LogEntry.otherEvent (NetworkEvent.Packet 0 "X") ∉
      (IdleTimeout.send_pongs (fun _ => true) ⟨0, 1⟩
        [NetworkEvent.Packet 0 "PING", NetworkEvent.Packet 1 "PING",
         NetworkEvent.Packet 0 "X"]).logs ∧
    (IdleTimeout.send_pongs (fun _ => true) ⟨0, 1⟩
        [NetworkEvent.Packet 0 "PING", NetworkEvent.Packet 1 "PING",
         NetworkEvent.Packet 0 "X"]).logs.count
      (LogEntry.gotPacket 0 "X") = 1 := by
  constructor
  · decide
  · decide

/-- C5 amended: with the batch `[Packet(A,"PING"), Packet(B,"PING"),
Packet(A,"X")]`, pong budget 1 and a succeeding send, the responder consumes
the events strictly in delivery order: exactly one PONG send is attempted
and its target is peer A (the first PING), B's PING logs the suppression
message, and `Packet(A,"X")` is logged via the packet-received log record
(not the other-event record) with no send and no counter change. -/
theorem batch_ordering_amended :
    IdleTimeout.send_pongs (fun _ => true) ⟨0, 1⟩
        [NetworkEvent.Packet 0 "PING", NetworkEvent.Packet 1 "PING",
         NetworkEvent.Packet 0 "X"] =
      ⟨⟨0, 0⟩, [(0, "PONG")],
       [LogEntry.gotPacket 0 "PING", LogEntry.sentPong,
        LogEntry.gotPacket 1 "PING", LogEntry.noPongsLeft,
        LogEntry.gotPacket 0 "X"]⟩ := by
  decide

namespace Simple

/-- Unfolding: an empty batch produces nothing. -/
theorem handle_packetsAux_nil (sendOk : Nat → Bool) (timeStr : String)
    (k : Nat) : handle_packetsAux sendOk timeStr k [] = ⟨[], []⟩ := rfl

/-- Unfolding: a PING packet is logged and answered unconditionally with a
`"PONG @ <elapsed-seconds>"` send to its originating peer, the outcome
logged. -/
theorem handle_packetsAux_ping (sendOk : Nat → Bool) (timeStr : String)
    (k handle : Nat) (evs : List NetworkEvent) :
    handle_packetsAux sendOk timeStr k
        (NetworkEvent.Packet handle "PING" :: evs) =
      ⟨(handle, "PONG @ " ++ timeStr) ::
         (handle_packetsAux sendOk timeStr (k + 1) evs).sends,
       LogEntry.gotPacket handle "PING" ::
         (if sendOk k then LogEntry.sentPong else LogEntry.pongSendError) ::
         (handle_packetsAux sendOk timeStr (k + 1) evs).logs⟩ := by
  simp [handle_packetsAux]

/-- Unfolding: a packet whose decoded text is not `"PING"` is logged and
nothing else happens. -/
theorem handle_packetsAux_packet_other (sendOk : Nat → Bool) (timeStr : String)
    (k handle : Nat) (message : String) (evs : List NetworkEvent)
    (h : message ≠ "PING") :
    handle_packetsAux sendOk timeStr k
        (NetworkEvent.Packet handle message :: evs) =
      ⟨(handle_packetsAux sendOk timeStr k evs).sends,
       LogEntry.gotPacket handle message ::
         (handle_packetsAux sendOk timeStr k evs).logs⟩ := by
  simp [handle_packetsAux, h]

/-- Unfolding: a connection event falls into the silent `_ => {}` arm. -/
theorem handle_packetsAux_connected (sendOk : Nat → Bool) (timeStr : String)
    (k handle : Nat) (evs : List NetworkEvent) :
    handle_packetsAux sendOk timeStr k (NetworkEvent.Connected handle :: evs) =
      handle_packetsAux sendOk timeStr k evs := by
  simp [handle_packetsAux]

/-- Unfolding: a disconnection event falls into the silent `_ => {}` arm. -/
theorem handle_packetsAux_disconnected (sendOk : Nat → Bool) (timeStr : String)
    (k handle : Nat) (evs : List NetworkEvent) :
    handle_packetsAux sendOk timeStr k
        (NetworkEvent.Disconnected handle :: evs) =
      handle_packetsAux sendOk timeStr k evs := by
  simp [handle_packetsAux]

/-- The send attempts of a batch are exactly one
`"PONG @ <elapsed-seconds>"` per PING packet, to its originating peer, in
delivery order. -/
theorem handle_packetsAux_sends (sendOk : Nat → Bool) (timeStr : String)
    (evs : List NetworkEvent) :
    ∀ k, (handle_packetsAux sendOk timeStr k evs).sends =
      evs.filterMap (fun e =>
        match e with
        | NetworkEvent.Packet h m =>
          if m = "PING" then some (h, "PONG @ " ++ timeStr) else none
        | _ => none) := by
  induction evs with
  | nil =>
    intro k
    rfl
  | cons e evs ih =>
    intro k
    cases e with
    | Connected handle =>
      rw [handle_packetsAux_connected, ih k, List.filterMap_cons]
    | Disconnected handle =>
      rw [handle_packetsAux_disconnected, ih k, List.filterMap_cons]
    | Packet handle message =>
      by_cases hm : message = "PING"
      · subst hm
        rw [handle_packetsAux_ping, List.filterMap_cons]
        simp [ih (k + 1)]
      · rw [handle_packetsAux_packet_other sendOk timeStr k handle message evs hm,
          List.filterMap_cons]
        simp [hm, ih k]

end Simple

/-- C8: in the unbounded "simple" variant, a server never broadcasts a PING
whatever the elapsed time (the broadcast sits under `!is_server`), and every
inbound packet decoding to `"PING"` is answered unconditionally — no budget
— by a send to its originating peer with payload
`"PONG @ " ++ timeStr`, where `timeStr` renders the current elapsed seconds:
the attempts of a batch are exactly one such send per PING, in order. -/
theorem simple_variant_behavior :
    (∀ t : ℚ, Simple.send_packets true t = []) ∧
    (∀ (sendOk : Nat → Bool) (timeStr : String) (events : List NetworkEvent),
      (Simple.handle_packets sendOk timeStr events).sends =
        events.filterMap (fun e =>
          match e with
          | NetworkEvent.Packet h m =>
            if m = "PING" then some (h, "PONG @ " ++ timeStr) else none
          | _ => none)) := by
  constructor
  · intro t
    rfl
  · intro sendOk timeStr events
    exact Simple.handle_packetsAux_sends sendOk timeStr events 0

/-- C7 counterexample: in the unbounded "simple" variant a `Connected` event
produces no log record at all — the `_ => {}` arm of `handle_packets` is
silent — refuting the claim that in both variants every non-PING event is
logged. -/
theorem non_ping_logging_counterexample :
    (Simple.handle_packets (fun _ => true) "0"
      [NetworkEvent.Connected 7]).logs = [] := rfl

/-- C7 amended: in the bounded variant, every inbound event that is not a
PING packet contributes exactly one log record (the got-packet record for a
packet with other payload, the other-event record for connection events), no
send, and no counter change. In the unbounded variant, a packet with other
payload contributes exactly its got-packet record and no send, while
`Connected` and `Disconnected` events contribute nothing at all — no log, no
send. -/
theorem non_ping_event_frame :
    (∀ (sendOk : Nat → Bool) (ppc : IdleTimeout.PingPongCounter)
        (e : NetworkEvent) (evs : List NetworkEvent),
      isPingEvent e = false →
        (IdleTimeout.send_pongs sendOk ppc (e :: evs)).ppc =
          (IdleTimeout.send_pongs sendOk ppc evs).ppc ∧
        (IdleTimeout.send_pongs sendOk ppc (e :: evs)).sends =
          (IdleTimeout.send_pongs sendOk ppc evs).sends ∧
        (IdleTimeout.send_pongs sendOk ppc (e :: evs)).logs =
          eventLog e :: (IdleTimeout.send_pongs sendOk ppc evs).logs) ∧
    (∀ (sendOk : Nat → Bool) (timeStr : String) (handle : Nat)
        (message : String) (evs : List NetworkEvent),
      message ≠ "PING" →
        Simple.handle_packets sendOk timeStr
            (NetworkEvent.Packet handle message :: evs) =
          ⟨(Simple.handle_packets sendOk timeStr evs).sends,
           LogEntry.gotPacket handle message ::
             (Simple.handle_packets sendOk timeStr evs).logs⟩) ∧
    (∀ (sendOk : Nat → Bool) (timeStr : String) (handle : Nat)
        (evs : List NetworkEvent),
      Simple.handle_packets sendOk timeStr
          (NetworkEvent.Connected handle :: evs) =
        Simple.handle_packets sendOk timeStr evs ∧
      Simple.handle_packets sendOk timeStr
          (NetworkEvent.Disconnected handle :: evs) =
        Simple.handle_packets sendOk timeStr evs) := by
  refine ⟨?_, ?_, ?_⟩
  · intro sendOk ppc e evs hne
    cases e with
    | Connected handle =>
      rw [IdleTimeout.send_pongs, IdleTimeout.send_pongs,
        IdleTimeout.send_pongsAux_connected]
      exact ⟨rfl, rfl, rfl⟩
    | Disconnected handle =>
      rw [IdleTimeout.send_pongs, IdleTimeout.send_pongs,
        IdleTimeout.send_pongsAux_disconnected]
      exact ⟨rfl, rfl, rfl⟩
    | Packet handle message =>
      have hm : message ≠ "PING" := by simpa [isPingEvent] using hne
      rw [IdleTimeout.send_pongs, IdleTimeout.send_pongs,
        IdleTimeout.send_pongsAux_packet_other sendOk ppc 0 handle message evs hm]
      exact ⟨rfl, rfl, rfl⟩
  · intro sendOk timeStr handle message evs hm
    exact Simple.handle_packetsAux_packet_other sendOk timeStr 0 handle
      message evs hm
  · intro sendOk timeStr handle evs
    exact ⟨Simple.handle_packetsAux_connected sendOk timeStr 0 handle evs,
      Simple.handle_packetsAux_disconnected sendOk timeStr 0 handle evs⟩

/-- C7 amended witness: concrete instances of each hypothesis-guarded part —
a `Connected` event and an `"X"` packet in the bounded responder, and an
`"X"` packet in the unbounded responder. -/
theorem non_ping_event_frame_witness :
    isPingEvent (NetworkEvent.Connected 3) = false ∧
    (IdleTimeout.send_pongs (fun _ => true) ⟨1, 1⟩
        [NetworkEvent.Connected 3]).logs =
      eventLog (NetworkEvent.Connected 3) ::
        (IdleTimeout.send_pongs (fun _ => true) ⟨1, 1⟩ []).logs ∧
    ("X" : String) ≠ "PING" ∧
    Simple.handle_packets (fun _ => true) "0" [NetworkEvent.Packet 2 "X"] =
      ⟨(Simple.handle_packets (fun _ => true) "0" []).sends,
       LogEntry.gotPacket 2 "X" ::
         (Simple.handle_packets (fun _ => true) "0" []).logs⟩ :=
  ⟨by decide,
   (non_ping_event_frame.1 (fun _ => true) ⟨1, 1⟩ (NetworkEvent.Connected 3)
     [] (by decide)).2.2,
   by decide,
   non_ping_event_frame.2.1 (fun _ => true) "0" 2 "X" [] (by decide)⟩
